import Mathlib

/-!
Verification development for the authentication gateway of the
`dudoxx-convex-frontend` repository.

The TypeScript sources are shallowly embedded:

* JavaScript strings are modelled as `List Char` (`JStr`); the string
  operations used by the code (`trim`, `toLowerCase`, `slice`, `split`,
  `startsWith`) are reimplemented on lists so that universal statements
  can be proved by induction.  The embedding covers the ASCII strings the
  code actually handles; UTF-16 subtleties of JavaScript do not arise in
  any claim.
* `Date.now()` timestamps are modelled as `Int` (JS numbers under
  subtraction), ISO timestamp strings as `Int` as well, since the code
  only ever compares them chronologically.
* The process-wide mutable state (mock user store, auth log array, the
  rate limiter map) is passed explicitly; each embedded function returns
  its updated state.
-/

/-- JavaScript strings, modelled at the character level. -/
abbrev JStr := List Char

/-- JavaScript `String.prototype.trim` (ASCII whitespace). -/
def jsTrim (s : JStr) : JStr :=
  ((s.dropWhile Char.isWhitespace).reverse.dropWhile Char.isWhitespace).reverse

/-- JavaScript `String.prototype.toLowerCase` (ASCII letters). -/
def jsToLower (s : JStr) : JStr :=
  s.map Char.toLower

/-- JavaScript `s.slice(0, n)`. -/
def jsSlice (n : Nat) (s : JStr) : JStr :=
  s.take n

/-- JavaScript `s.startsWith(p)`. -/
def jsStartsWith (s p : JStr) : Bool :=
  p.isPrefixOf s

/-- JavaScript truthiness of a possibly missing string header or field:
`null`/`undefined` and the empty string are falsy. -/
def optTruthy : Option JStr → Bool
  | none => false
  | some s => !s.isEmpty

/-- JavaScript `String.prototype.split` with a one-character separator.
Always returns a non-empty list of fragments. -/
def splitOnChar (sep : Char) : JStr → List JStr
  | [] => [[]]
  | c :: cs =>
    let rest := splitOnChar sep cs
    if c = sep then [] :: rest
    else
      match rest with
      | r :: rs => (c :: r) :: rs
      | [] => [[c]]

/-- The strict email pattern used by the login and register routes,
`^[^\s@]+@[^\s@]+\.[^\s@]+$`: the string must consist of a non-empty
local part without whitespace or `@`, one `@`, and a domain without
whitespace or `@` that contains a dot with at least one character on
each side. -/
def emailFormatOk (s : JStr) : Bool :=
  match splitOnChar '@' s with
  | [a, d] =>
    !a.isEmpty && a.all (fun c => !c.isWhitespace) &&
    d.all (fun c => !c.isWhitespace) &&
    (List.range d.length).any
      (fun i => decide (1 ≤ i) && decide (i + 2 ≤ d.length) && (d.get? i == some '.'))
  | _ => false

/-! ## SecurityLogger.maskEmail (CLAUDE_security.md, SecurityLogger) -/

/-- The fixed infix that replaces the tail of the local part: `***@`. -/
def maskStars : JStr := ['*', '*', '*', '@']

/-- What JavaScript destructuring yields for the domain of an `@`-free
string: `undefined`, later interpolated as the text `undefined`. -/
def jsUndefinedStr : JStr := "undefined".toList

/-- `SecurityLogger.maskEmail`: split on `@`; keep the whole local part
when it has at most two characters, otherwise its first two characters;
then append `***@` and the domain. -/
def maskEmail (email : JStr) : JStr :=
  let parts := splitOnChar '@' email
  let localPart := parts.headD []
  let domain := (parts.drop 1).headD jsUndefinedStr
  if localPart.length ≤ 2 then localPart ++ maskStars ++ domain
  else localPart.take 2 ++ maskStars ++ domain

/-! ## validateOrigin (src/app/api/auth/middleware.ts) -/

/-- The process environment as seen by `validateOrigin`:
`NODE_ENV === 'production'` and `NEXT_PUBLIC_APP_URL` (`none` when the
variable is unset). -/
structure Env where
  production : Bool
  appUrl : Option JStr
  deriving DecidableEq

/-- Loopback prefix `http://localhost:`. -/
def localhostColon : JStr := "http://localhost:".toList

/-- Loopback prefix `http://127.0.0.1:`. -/
def loopbackColon : JStr := "http://127.0.0.1:".toList

/-- The origin hardcoded into the production allow-list,
`http://localhost:3000`. -/
def localhost3000 : JStr := "http://localhost:3000".toList

/-- `validateOrigin` from the middleware.  In development it accepts any
origin or referer that starts with a loopback prefix; in production it
checks the array `[process.env.NEXT_PUBLIC_APP_URL, 'http://localhost:3000']`
(an unset variable stays in the array as `undefined`, and
`referer.startsWith(allowed || '')` turns it into the empty prefix).
Both modes fall through to `return !origin`. -/
def validateOrigin (env : Env) (origin referer : Option JStr) : Bool :=
  let isDevelopment := !env.production
  if isDevelopment then
    if optTruthy origin &&
        (jsStartsWith (origin.getD []) localhostColon ||
         jsStartsWith (origin.getD []) loopbackColon) then true
    else if optTruthy referer &&
        (jsStartsWith (referer.getD []) localhostColon ||
         jsStartsWith (referer.getD []) loopbackColon) then true
    else !optTruthy origin
  else
    let originInAllowed : Bool :=
      (match env.appUrl with
       | some u => origin.getD [] == u
       | none => false) ||
      (origin.getD [] == localhost3000)
    if optTruthy origin && originInAllowed then true
    else if optTruthy referer &&
        (jsStartsWith (referer.getD []) (env.appUrl.getD []) ||
         jsStartsWith (referer.getD []) localhost3000) then true
    else !optTruthy origin

/-! ## RateLimiter (CLAUDE_security.md, class RateLimiter) -/

namespace RateLimiter

/-- `RateLimiter.isAllowed` for one identifier.  The `Map` keyed by
identifier is modelled per identifier: the function receives that
identifier's recorded timestamp list and returns the admission decision
together with the list stored back.  On denial the code returns early
without writing, so the stored list is unchanged; on admission the
filtered list plus `now` is stored. -/
def isAllowed (now windowMs : Int) (maxRequests : Nat) (requests : List Int) :
    Bool × List Int :=
  let windowStart := now - windowMs
  let kept := requests.filter (fun t => windowStart < t)
  if maxRequests ≤ kept.length then (false, requests)
  else (true, kept ++ [now])

/-- Run a sequence of admission calls for one identifier, starting from a
stored timestamp list, returning the decisions in order and the final
stored list. -/
def runCalls (windowMs : Int) (maxRequests : Nat) (st : List Int) :
    List Int → List Bool × List Int
  | [] => ([], st)
  | t :: ts =>
    let step := isAllowed t windowMs maxRequests st
    let rest := runCalls windowMs maxRequests step.2 ts
    (step.1 :: rest.1, rest.2)

end RateLimiter

/-! ## Request validation (middleware.ts and CLAUDE_security.md) -/

/-- JSON values, as produced by `request.json()`. Object keys are Lean
strings (only compared for equality); string leaves use `JStr` so the
character-level trim and slice can be applied to them. -/
inductive Json where
  | jnull : Json
  | jbool : Bool → Json
  | jnum : Int → Json
  | jstr : JStr → Json
  | jarr : List Json → Json
  | jobj : List (String × Json) → Json

/-- The dangerous property names removed by both validators. -/
def isDangerousKey (k : String) : Bool :=
  k == "__proto__" || k == "constructor" || k == "prototype"

/-- Result of `validateRequest`: either `{isValid:false, error}` or
`{isValid:true, data}`. -/
structure ValResult where
  isValid : Bool
  error : Option JStr
  data : Option Json

/-- Error message for non-object bodies. -/
def msgInvalidFormat : JStr := "Invalid request format".toList

/-- The `validateRequest` that the API routes actually import
(`src/app/api/auth/middleware.ts`): reject non-objects, copy the body and
delete the three dangerous keys at the top level only; nothing is done to
nested objects or to string values.  JSON arrays also have
`typeof === 'object'` and are passed through; since `JSON.parse` never
gives arrays own non-index keys, the deletions are a no-op on them. -/
def validateRequest (body : Json) : ValResult :=
  match body with
  | Json.jobj fields =>
    { isValid := true, error := none
      data := some (Json.jobj (fields.filter (fun kv => !isDangerousKey kv.1))) }
  | Json.jarr xs =>
    { isValid := true, error := none, data := some (Json.jarr xs) }
  | _ => { isValid := false, error := some msgInvalidFormat, data := none }

mutual

/-- `deepSanitize` from the CLAUDE_security.md version of
`validateRequest`: non-objects (and `null`) are returned unchanged;
objects are rebuilt entry by entry. -/
def deepSanitize : Json → Json
  | Json.jobj fs => Json.jobj (sanFields fs)
  | Json.jarr xs => Json.jobj (sanElems 0 xs)
  | j => j

/-- One pass of `deepSanitize` over `Object.entries(obj)`: dangerous keys
are skipped, string values are trimmed and cut to 1000 characters, object
values (including arrays and `null`) are recursed into, everything else is
kept. -/
def sanFields : List (String × Json) → List (String × Json)
  | [] => []
  | (k, v) :: rest =>
    if isDangerousKey k then sanFields rest
    else (k, sanValue v) :: sanFields rest

/-- `Object.entries` of a JavaScript array yields index keys `0`, `1`, …
with the element values. -/
def sanElems : Nat → List Json → List (String × Json)
  | _, [] => []
  | i, x :: rest => (toString i, sanValue x) :: sanElems (i + 1) rest

/-- The per-value branch inside `deepSanitize`: strings are trimmed and
sliced to 1000, values with `typeof === 'object'` (objects, arrays and
`null`) go through `deepSanitize`, other primitives are copied. -/
def sanValue : Json → Json
  | Json.jstr s => Json.jstr (jsSlice 1000 (jsTrim s))
  | Json.jobj fs => Json.jobj (sanFields fs)
  | Json.jarr xs => Json.jobj (sanElems 0 xs)
  | j => j

end

/-- The documented validator from CLAUDE_security.md
(`validateRequest` with the `deepSanitize` pass): shallow key removal as
in the middleware, followed by the recursive sanitisation. -/
def validateRequestDoc (body : Json) : ValResult :=
  match body with
  | Json.jobj fields =>
    { isValid := true, error := none
      data := some (deepSanitize
        (Json.jobj (fields.filter (fun kv => !isDangerousKey kv.1)))) }
  | Json.jarr xs =>
    { isValid := true, error := none, data := some (deepSanitize (Json.jarr xs)) }
  | _ => { isValid := false, error := some msgInvalidFormat, data := none }

mutual

/-- Whether a JSON value contains one of the dangerous keys at any
nesting depth. -/
def hasDangerDeep : Json → Bool
  | Json.jobj fs => hasDangerFields fs
  | Json.jarr xs => hasDangerElems xs
  | _ => false

/-- Dangerous-key search over object entries. -/
def hasDangerFields : List (String × Json) → Bool
  | [] => false
  | (k, v) :: rest => isDangerousKey k || hasDangerDeep v || hasDangerFields rest

/-- Dangerous-key search over array elements. -/
def hasDangerElems : List Json → Bool
  | [] => false
  | x :: rest => hasDangerDeep x || hasDangerElems rest

end

/-- Field lookup on a JSON object (JavaScript property access after
destructuring). -/
def getField (j : Json) (k : String) : Option Json :=
  match j with
  | Json.jobj fs => (fs.find? (fun kv => kv.1 == k)).map (fun kv => kv.2)
  | _ => none

/-- Looking a non-dangerous key up after the shallow key removal is the
same as looking it up in the original entry list. -/
theorem find?_filter_safe (fs : List (String × Json)) (k : String)
    (hk : isDangerousKey k = false) :
    List.find? (fun kv => kv.1 == k) (fs.filter (fun kv => !isDangerousKey kv.1))
      = List.find? (fun kv => kv.1 == k) fs := by
  induction fs with
  | nil => rfl
  | cons kv rest ih =>
    cases hd : isDangerousKey kv.1 with
    | true =>
      have hne : (kv.1 == k) = false := by
        cases he : (kv.1 == k) with
        | true =>
          have hek : kv.1 = k := eq_of_beq he
          rw [hek, hk] at hd
          cases hd
        | false => rfl
      simp [List.filter_cons, hd, List.find?, hne, ih]
    | false =>
      cases he : (kv.1 == k) with
      | true => simp [List.filter_cons, hd, List.find?, he]
      | false => simp [List.filter_cons, hd, List.find?, he, ih]

/-- The middleware validator only deletes the three dangerous keys at the
top level, so any other field of the body reaches the route handlers
unchanged.  This justifies modelling the route handlers on the
destructured `name` / `email` / `password` fields directly. -/
theorem validateRequest_preserves_safe_fields (fs : List (String × Json))
    (k : String) (hk : isDangerousKey k = false) :
    getField (Json.jobj (fs.filter (fun kv => !isDangerousKey kv.1))) k
      = getField (Json.jobj fs) k := by
  simp only [getField, find?_filter_safe fs k hk]

/-! ## MockAuthStore (src/app/api/auth/mock-store.ts) -/

/-- A user record of the in-memory mock store.  The ISO `createdAt`
string is modelled by its timestamp. -/
structure MUser where
  id : JStr
  name : JStr
  email : JStr
  password : JStr
  createdAt : Int
  deriving DecidableEq

/-- An auth log entry of the mock store.  The ISO timestamp string is
modelled by its timestamp; later entries of the array carry larger
timestamps. -/
structure MLog where
  id : JStr
  action : JStr
  userId : JStr
  email : JStr
  success : Bool
  timestamp : Int
  deriving DecidableEq

namespace MockAuthStore

/-- `MockAuthStore.findUserByEmail`: first user whose stored email equals
the argument exactly (`Array.prototype.find`). -/
def findUserByEmail (email : JStr) (users : List MUser) : Option MUser :=
  users.find? (fun u => u.email = email)

/-- `MockAuthStore.authenticateUser`: the found user is returned exactly
when its stored plaintext password equals the supplied one.  The
`logAuthEvent` appends performed on both branches mutate only the log
array, never the return value, and are modelled separately by
`getAuthLogs` taking the log array as an argument. -/
def authenticateUser (email password : JStr) (users : List MUser) : Option MUser :=
  match findUserByEmail email users with
  | some u => if u.password = password then some u else none
  | none => none

/-- `MockAuthStore.getAuthLogs`: with a user id, the log array filtered
to that id, in unchanged insertion order and without any bound; without
one, the whole array. -/
def getAuthLogs (userId : Option JStr) (authLogs : List MLog) : List MLog :=
  match userId with
  | some uid => authLogs.filter (fun l => l.userId = uid)
  | none => authLogs

end MockAuthStore

/-! ## API route handlers (src/app/api/auth/login|register/route.ts) -/

/-- The JSON body a route responds with. -/
inductive RespBody where
  | errMsg : JStr → RespBody
  | loginOk : JStr → JStr → JStr → RespBody
  | registerOk : JStr → RespBody
  deriving DecidableEq

/-- Client-visible messages of the two route handlers. -/
def msgInvalidOrigin : JStr := "Invalid origin".toList

/-- 429 message of both route handlers. -/
def msgTooManyRequests : JStr := "Too many requests".toList

/-- 400 message of the login route for a missing email or password. -/
def msgEmailPasswordRequired : JStr := "Email and password are required".toList

/-- 400 message of both routes for a malformed email. -/
def msgInvalidEmailFormat : JStr := "Invalid email format".toList

/-- The generic 401 message of the login route. -/
def msgInvalidCredentials : JStr := "Invalid email or password".toList

/-- 400 message of the register route for missing fields. -/
def msgMissingFields : JStr := "Missing required fields: name, email, password".toList

/-- 400 message of the register route for a short password. -/
def msgPasswordTooShort : JStr := "Password must be at least 8 characters long".toList

/-- 409 message of the register route. -/
def msgUserExists : JStr := "User with this email already exists".toList

/-- The `rateLimit()` stub of the middleware: it ignores the request and
always reports `{allowed: true}`. -/
structure RateLimitResult where
  allowed : Bool
  deriving DecidableEq

/-- `rateLimit` from the middleware (a stub that always admits). -/
def rateLimit : RateLimitResult := { allowed := true }

/-- `POST /api/auth/login`.  The body has already been parsed and passed
through `validateRequest`, which by `validateRequest_preserves_safe_fields`
leaves the `email` and `password` fields untouched, so the handler is
modelled on the two destructured fields (absent or non-string fields are
the `none` case).  Early returns become nested conditionals. -/
def loginRoute (env : Env) (origin referer : Option JStr)
    (email password : Option JStr) (users : List MUser) : Nat × RespBody :=
  if validateOrigin env origin referer then
    if rateLimit.allowed then
      if optTruthy email && optTruthy password then
        let e := email.getD []
        let p := password.getD []
        if emailFormatOk e then
          match MockAuthStore.authenticateUser (jsTrim (jsToLower e)) p users with
          | some u => (200, RespBody.loginOk u.id u.name u.email)
          | none => (401, RespBody.errMsg msgInvalidCredentials)
        else (400, RespBody.errMsg msgInvalidEmailFormat)
      else (400, RespBody.errMsg msgEmailPasswordRequired)
    else (429, RespBody.errMsg msgTooManyRequests)
  else (403, RespBody.errMsg msgInvalidOrigin)

/-- `POST /api/auth/register`.  Modelled like `loginRoute` on the
destructured fields; the id built from `Date.now()` and `Math.random()`
and the creation time are supplied as the `newId` and `now` parameters.
Returns the response together with the user array after the call. -/
def registerRoute (env : Env) (origin referer : Option JStr)
    (name email password : Option JStr) (users : List MUser)
    (newId : JStr) (now : Int) : (Nat × RespBody) × List MUser :=
  if validateOrigin env origin referer then
    if rateLimit.allowed then
      if optTruthy name && optTruthy email && optTruthy password then
        let nm := name.getD []
        let e := email.getD []
        let p := password.getD []
        if p.length < 8 then ((400, RespBody.errMsg msgPasswordTooShort), users)
        else if emailFormatOk e then
          match MockAuthStore.findUserByEmail (jsTrim (jsToLower e)) users with
          | some _ => ((409, RespBody.errMsg msgUserExists), users)
          | none =>
            let newUser : MUser :=
              { id := newId, name := jsTrim nm, email := jsTrim (jsToLower e)
                password := p, createdAt := now }
            ((201, RespBody.registerOk newUser.id), users ++ [newUser])
        else ((400, RespBody.errMsg msgInvalidEmailFormat), users)
      else ((400, RespBody.errMsg msgMissingFields), users)
    else ((429, RespBody.errMsg msgTooManyRequests), users)
  else ((403, RespBody.errMsg msgInvalidOrigin), users)

/-! ## Convex backend (convex/internal.ts, authentication.ts, users.ts) -/

/-- A row of the Convex `users` table: `name`, `email`, and optional
`emailVerificationTime`.  No credential is stored. -/
structure CUser where
  cid : JStr
  name : JStr
  email : JStr
  emailVerificationTime : Option Int
  deriving DecidableEq

/-- A row of the Convex `profiles` table (fields beyond those used by the
claims are omitted from the model). -/
structure CProfile where
  userId : JStr
  displayName : Option JStr
  createdAt : Int
  updatedAt : Int
  deriving DecidableEq

/-- A row of the Convex `authLogs` table.  `_creationTime` ordering is
represented by the position in the table list (insertion order) and by
the stored `timestamp` field. -/
structure CLog where
  action : JStr
  userId : Option JStr
  email : Option JStr
  success : Bool
  error : Option JStr
  timestamp : Int
  deriving DecidableEq

/-- The Convex database, each table as a list in insertion order. -/
structure CDb where
  users : List CUser
  profiles : List CProfile
  authLogs : List CLog
  deriving DecidableEq

/-- Action tag written by the register mutation. -/
def actUserRegistered : JStr := "user_registered".toList

/-- Action tag written by the HTTP login flow. -/
def actUserLogin : JStr := "user_login".toList

/-- Error thrown by the register mutation on a duplicate email. -/
def msgConvexUserExists : JStr := "User with this email already exists".toList

/-- The `register` mutation of `convex/authentication.ts`: the duplicate
check filters the `users` table on *exact* email equality; on a miss it
inserts the user (without the password argument, which is discarded), a
profile and a log entry; on a hit it throws. -/
def convexRegister (nm em _pw : JStr) (db : CDb) (newUserId : JStr) (now : Int) :
    Except JStr (JStr × CDb) :=
  match db.users.find? (fun u => u.email = em) with
  | some _ => Except.error msgConvexUserExists
  | none =>
    let u : CUser := { cid := newUserId, name := nm, email := em
                       emailVerificationTime := some now }
    let pr : CProfile := { userId := newUserId, displayName := some nm
                           createdAt := now, updatedAt := now }
    let lg : CLog := { action := actUserRegistered, userId := some newUserId
                       email := some em, success := true, error := none
                       timestamp := now }
    Except.ok (newUserId,
      { users := db.users ++ [u], profiles := db.profiles ++ [pr]
        authLogs := db.authLogs ++ [lg] })

/-- `internal.authenticateUser` of `convex/internal.ts`: looks the user up
by email through the `by_email` index and returns it; the `password`
argument is accepted but never compared (the code reads
"For demo purposes, accept any password"). -/
def internalAuthenticateUser (email _password : JStr) (db : CDb) : Option CUser :=
  db.users.find? (fun u => u.email = email)

/-- Response bodies of the Convex HTTP auth actions. -/
inductive CResp where
  | err : JStr → CResp
  | loginOk : JStr → JStr → JStr → CResp
  deriving DecidableEq

/-- 400 message of the HTTP login action. -/
def msgEmailAndPasswordRequired : JStr := "Email and password are required".toList

/-- 401 message of the HTTP login action. -/
def msgConvexInvalidCredentials : JStr := "Invalid email or password".toList

/-- The HTTP `login` action of `convex/http_auth.ts` (routed at
`/auth/login`): missing fields give 400; then
`internal.authenticateUser` decides; a found user is logged and answered
with 200 plus the public user fields, otherwise 401.  Returns the
response with the database after the call (the success branch appends a
log row at time `now`). -/
def convexHttpLogin (email password : Option JStr) (db : CDb) (now : Int) :
    (Nat × CResp) × CDb :=
  if optTruthy email && optTruthy password then
    match internalAuthenticateUser (email.getD []) (password.getD []) db with
    | some u =>
      let lg : CLog := { action := actUserLogin, userId := some u.cid
                         email := some u.email, success := true, error := none
                         timestamp := now }
      ((200, CResp.loginOk u.cid u.name u.email),
        { db with authLogs := db.authLogs ++ [lg] })
    | none => ((401, CResp.err msgConvexInvalidCredentials), db)
  else ((400, CResp.err msgEmailAndPasswordRequired), db)

/-- `getMyAuthLogs` of `convex/users.ts` (authenticated version): for an
unauthenticated caller the empty list; otherwise the `authLogs` table
restricted through the `by_user` index to the caller, ordered descending
by creation time (the reverse of insertion order) and limited by
`take(50)`. -/
def getMyAuthLogs (userId : Option JStr) (authLogs : List CLog) : List CLog :=
  match userId with
  | none => []
  | some uid => ((authLogs.filter (fun l => l.userId = some uid)).reverse).take 50

/-! ## Helper lemmas -/

/-- Splitting a separator-free string yields that one fragment. -/
theorem splitOnChar_not_mem (sep : Char) (d : JStr) (h : sep ∉ d) :
    splitOnChar sep d = [d] := by
  induction d with
  | nil => rfl
  | cons c cs ih =>
    have hc : ¬ c = sep := fun he => h (he ▸ List.mem_cons_self c cs)
    have hcs : sep ∉ cs := fun hm => h (List.mem_cons_of_mem c hm)
    simp [splitOnChar, hc, ih hcs]

/-- Splitting around the first separator peels off the prefix before it. -/
theorem splitOnChar_append (sep : Char) (l d : JStr) (hl : sep ∉ l) :
    splitOnChar sep (l ++ sep :: d) = l :: splitOnChar sep d := by
  induction l with
  | nil => simp [splitOnChar]
  | cons c cs ih =>
    have hc : ¬ c = sep := fun he => hl (he ▸ List.mem_cons_self c cs)
    have hcs : sep ∉ cs := fun hm => hl (List.mem_cons_of_mem c hm)
    simp [splitOnChar, hc, ih hcs]

/-- A string passing the email format check is non-empty. -/
theorem emailFormatOk_ne_nil {e : JStr} (h : emailFormatOk e = true) : e ≠ [] := by
  rintro rfl
  simp [emailFormatOk, splitOnChar] at h

/-- JavaScript truthiness of a present, non-empty string. -/
theorem isEmpty_false_of_ne_nil {l : JStr} (h : l ≠ []) : l.isEmpty = false := by
  cases l with
  | nil => exact absurd rfl h
  | cons c cs => rfl

/-- `MockAuthStore.authenticateUser` returns a user exactly when the
store holds an account with the supplied email whose stored password is
the supplied one; email uniqueness of the store makes the account at
hand the found one. -/
theorem authenticateUser_isSome_iff (users : List MUser) (em p : JStr)
    (huniq : ∀ u ∈ users, ∀ v ∈ users, u.email = v.email → u = v) :
    (MockAuthStore.authenticateUser em p users).isSome
      ↔ ∃ u ∈ users, u.email = em ∧ u.password = p := by
  unfold MockAuthStore.authenticateUser MockAuthStore.findUserByEmail
  constructor
  · intro hsome
    cases hfind : users.find? (fun u => u.email = em) with
    | none => rw [hfind] at hsome; simp at hsome
    | some u =>
      rw [hfind] at hsome
      by_cases hpw : u.password = p
      · have hpa := List.find?_some hfind
        simp only [decide_eq_true_eq] at hpa
        exact ⟨u, List.mem_of_find?_eq_some hfind, hpa, hpw⟩
      · simp [hpw] at hsome
  · rintro ⟨u, hu, hue, hup⟩
    have hex : (users.find? (fun x => x.email = em)).isSome := by
      rw [List.find?_isSome]
      exact ⟨u, hu, decide_eq_true hue⟩
    cases hfind : users.find? (fun x => x.email = em) with
    | none => rw [hfind] at hex; simp at hex
    | some v =>
      have hpa := List.find?_some hfind
      simp only [decide_eq_true_eq] at hpa
      have hvu : v = u := huniq v (List.mem_of_find?_eq_some hfind) u hu
        (by rw [hpa, hue])
      subst hvu
      simp [hup]

/-! ## Claim theorems -/

/-- C7: for every email of the form `localPart@domain`, `maskEmail`
keeps the whole local part when it has at most two characters and its
first two characters otherwise, and always inserts the fixed mask `***`
before the `@` and the unchanged domain. -/
theorem maskEmail_keeps_first_two_chars (l d : JStr)
    (hl : '@' ∉ l) (hd : '@' ∉ d) :
    maskEmail (l ++ '@' :: d)
      = (if l.length ≤ 2 then l else l.take 2) ++ maskStars ++ d := by
  unfold maskEmail
  rw [splitOnChar_append '@' l d hl, splitOnChar_not_mem '@' d hd]
  by_cases h2 : l.length ≤ 2 <;> simp [h2]

/-- Witness for C7 at the two examples of the specification:
`ab@example.com` and `a@example.com`. -/
theorem maskEmail_keeps_first_two_chars_witness :
    maskEmail ("ab@example.com".toList) = "ab***@example.com".toList
    ∧ maskEmail ("a@example.com".toList) = "a***@example.com".toList := by
  constructor
  · have h := maskEmail_keeps_first_two_chars ("ab".toList) ("example.com".toList)
      (by decide) (by decide)
    rw [show ("ab@example.com".toList : JStr)
        = "ab".toList ++ '@' :: "example.com".toList from by decide]
    rw [h]
    decide
  · have h := maskEmail_keeps_first_two_chars ("a".toList) ("example.com".toList)
      (by decide) (by decide)
    rw [show ("a@example.com".toList : JStr)
        = "a".toList ++ '@' :: "example.com".toList from by decide]
    rw [h]
    decide

/-- C9: a request with no Origin header is accepted by `validateOrigin`
in every environment mode and for every Referer value, through the
`return !origin` fallthrough. -/
theorem validateOrigin_accepts_missing_origin (env : Env) (referer : Option JStr) :
    validateOrigin env none referer = true := by
  cases hp : env.production <;> simp [validateOrigin, hp, optTruthy]

/-- C10: in production mode with `NEXT_PUBLIC_APP_URL` unset, the
referer check degenerates to `startsWith('')`, so any request carrying a
non-empty Referer is accepted no matter what its Origin is; the
hardcoded `http://localhost:3000` origin is accepted in production under
every `NEXT_PUBLIC_APP_URL` value; in particular a request from
`https://evil.example` passes, so production does not restrict requests
to a configured allow-list under this configuration. -/
theorem validateOrigin_production_unset_appUrl :
    (∀ (origin : Option JStr) (r : JStr), r ≠ [] →
      validateOrigin { production := true, appUrl := none } origin (some r) = true)
    ∧ (∀ (appUrl : Option JStr) (referer : Option JStr),
      validateOrigin { production := true, appUrl := appUrl }
        (some localhost3000) referer = true)
    ∧ validateOrigin { production := true, appUrl := none }
        (some ("https://evil.example".toList))
        (some ("https://evil.example/form".toList)) = true := by
  refine ⟨?_, ?_, by decide⟩
  · intro origin r hr
    have hre : r.isEmpty = false := isEmpty_false_of_ne_nil hr
    simp [validateOrigin, optTruthy, jsStartsWith, List.isPrefixOf, hre]
  · intro appUrl referer
    have h1 : optTruthy (some localhost3000) = true := by decide
    have h2 : (localhost3000 == localhost3000) = true := by decide
    cases appUrl <;> simp [validateOrigin, h1, h2]

/-- Witness for C10 at a concrete hostile referer. -/
theorem validateOrigin_production_unset_appUrl_witness :
    validateOrigin { production := true, appUrl := none }
      (some ("https://attacker.test".toList))
      (some ("https://attacker.test/page".toList)) = true :=
  validateOrigin_production_unset_appUrl.1
    (some ("https://attacker.test".toList)) ("https://attacker.test/page".toList)
    (by decide)

/-- As long as every stored timestamp and every call time lies strictly
inside the window anchored at `B` and the total count stays within the
limit, every call is admitted and the stored list accumulates the call
times in order. -/
theorem runCalls_all_allowed (windowMs : Int) (maxRequests : Nat) (B : Int) :
    ∀ (ts st : List Int),
      st.length + ts.length ≤ maxRequests →
      (∀ x ∈ st, B < x) →
      (∀ t ∈ ts, B < t ∧ t ≤ B + windowMs) →
      RateLimiter.runCalls windowMs maxRequests st ts
        = (List.replicate ts.length true, st ++ ts) := by
  intro ts
  induction ts with
  | nil =>
    intro st _ _ _
    simp [RateLimiter.runCalls]
  | cons t ts ih =>
    intro st hlen hst hts
    have hkeep : st.filter (fun x => decide (t - windowMs < x)) = st := by
      rw [List.filter_eq_self]
      intro x hx
      have h1 := hst x hx
      have h2 := (hts t (List.mem_cons_self t ts)).2
      exact decide_eq_true (by omega)
    have hlt : ¬ maxRequests ≤ st.length := by
      have : ts.length + 1 = (t :: ts).length := by simp
      omega
    have hstep : RateLimiter.isAllowed t windowMs maxRequests st
        = (true, st ++ [t]) := by
      simp [RateLimiter.isAllowed, hkeep, hlt]
    have hrec := ih (st ++ [t])
      (by simp at hlen ⊢; omega)
      (by
        intro x hx
        rcases List.mem_append.mp hx with hx1 | hx2
        · exact hst x hx1
        · rw [List.mem_singleton.mp hx2]
          exact (hts t (List.mem_cons_self t ts)).1)
      (fun x hx => hts x (List.mem_cons_of_mem t hx))
    simp only [RateLimiter.runCalls, hstep, hrec, List.length_cons,
      List.replicate_succ]
    rw [List.append_assoc, List.singleton_append]

/-- C2: with `windowMillis = 900000` and `maxAttempts = 10`, starting
from an empty record, ten calls inside one window are all admitted; an
eleventh call whose window still contains all ten recorded timestamps is
denied; once the window has elapsed past every recorded attempt, a later
call is admitted again. -/
theorem rateLimiter_denies_11th_allows_after_window
    (ts : List Int) (t11 tLater : Int)
    (hlen : ts.length = 10)
    (hwin : ∀ t ∈ ts, t11 - 900000 < t ∧ t ≤ t11)
    (hel : ∀ t ∈ ts, t ≤ tLater - 900000) :
    (RateLimiter.runCalls 900000 10 [] ts).1 = List.replicate 10 true
    ∧ (RateLimiter.isAllowed t11 900000 10
        (RateLimiter.runCalls 900000 10 [] ts).2).1 = false
    ∧ (RateLimiter.isAllowed tLater 900000 10
        (RateLimiter.isAllowed t11 900000 10
          (RateLimiter.runCalls 900000 10 [] ts).2).2).1 = true := by
  have hrun := runCalls_all_allowed 900000 10 (t11 - 900000) ts []
    (by simp [hlen])
    (by intro x hx; simp at hx)
    (by intro t ht; have := hwin t ht; omega)
  have hkeep : ts.filter (fun x => decide (t11 - 900000 < x)) = ts := by
    rw [List.filter_eq_self]
    intro x hx
    exact decide_eq_true (hwin x hx).1
  have hdeny : RateLimiter.isAllowed t11 900000 10 ts = (false, ts) := by
    simp [RateLimiter.isAllowed, hkeep, hlen]
  have hdrop : ts.filter (fun x => decide (tLater - 900000 < x)) = [] := by
    rw [List.filter_eq_nil_iff]
    intro x hx
    have := hel x hx
    simp
    omega
  have hallow : (RateLimiter.isAllowed tLater 900000 10 ts).1 = true := by
    simp [RateLimiter.isAllowed, hdrop]
  refine ⟨?_, ?_, ?_⟩
  · rw [hrun, hlen]
  · rw [hrun]
    simp [hdeny]
  · rw [hrun]
    simp only [List.nil_append]
    rw [hdeny]
    exact hallow

/-- Concrete timestamps for the C2 witness: ten attempts at times 1…10. -/
def tsWitness : List Int := [1, 2, 3, 4, 5, 6, 7, 8, 9, 10]

/-- Witness for C2: ten calls at times 1…10, an eleventh at time 11
inside the window, a later one at time 900011 past it. -/
theorem rateLimiter_denies_11th_allows_after_window_witness :
    (RateLimiter.runCalls 900000 10 [] tsWitness).1 = List.replicate 10 true
    ∧ (RateLimiter.isAllowed 11 900000 10
        (RateLimiter.runCalls 900000 10 [] tsWitness).2).1 = false
    ∧ (RateLimiter.isAllowed 900011 900000 10
        (RateLimiter.isAllowed 11 900000 10
          (RateLimiter.runCalls 900000 10 [] tsWitness).2).2).1 = true :=
  rateLimiter_denies_11th_allows_after_window tsWitness 11 900011
    (by decide) (by decide) (by decide)

/-! ## Validator claims (C3, C4) -/

/-- Top-level key of the C3 failing input. -/
def keyData : String := "data"

/-- The dangerous key nested one level down. -/
def keyProto : String := "__proto__"

/-- The C3 failing input `{"data": {"__proto__": 1}}`. -/
def cexBody3 : Json := Json.jobj [(keyData, Json.jobj [(keyProto, Json.jnum 1)])]

/-- C3: the middleware `validateRequest` accepts the payload
`{"data": {"__proto__": 1}}` and returns it with the nested
`__proto__` key still present, so the dangerous keys are not stripped
recursively; the recursive `deepSanitize` documented in
CLAUDE_security.md does remove it on the same input. -/
theorem validateRequest_keeps_nested_proto :
    validateRequest cexBody3
      = { isValid := true, error := none, data := some cexBody3 }
    ∧ hasDangerDeep cexBody3 = true
    ∧ validateRequestDoc cexBody3
      = { isValid := true, error := none
          data := some (Json.jobj [(keyData, Json.jobj [])]) }
    ∧ hasDangerDeep (Json.jobj [(keyData, Json.jobj [])]) = false :=
  ⟨rfl, rfl, rfl, rfl⟩

/-- Field key of the C4 failing input. -/
def keyName : String := "name"

/-- A string of 1002 characters: a leading space and 1001 letters. -/
def longRaw : JStr := ' ' :: List.replicate 1001 'a'

/-- The first 1000 letters, the output the specification requires. -/
def truncated1000 : JStr := List.replicate 1000 'a'

/-- The C4 failing input `{"name": longRaw}`. -/
def cexBody4 : Json := Json.jobj [(keyName, Json.jstr longRaw)]

set_option maxRecDepth 100000 in
/-- C4: the middleware `validateRequest` returns the 1002-character
string value untrimmed and untruncated (its trimmed form has 1001
characters, above the 1000 maximum), while the documented `deepSanitize`
trims and cuts it to exactly 1000 characters on the same input. -/
theorem validateRequest_keeps_long_string :
    validateRequest cexBody4
      = { isValid := true, error := none, data := some cexBody4 }
    ∧ longRaw.length = 1002
    ∧ (jsTrim longRaw).length = 1001
    ∧ validateRequestDoc cexBody4
      = { isValid := true, error := none
          data := some (Json.jobj [(keyName, Json.jstr truncated1000)]) }
    ∧ truncated1000.length = 1000 :=
  ⟨rfl, by decide, by decide, by rfl, by decide⟩

/-! ## Login and registration claims (C1, C5, C6, C8) -/

/-- Id of the pre-populated test user. -/
def testUserId : JStr := "user_1".toList

/-- Name of the pre-populated test user. -/
def testUserName : JStr := "Test User".toList

/-- Normalized email of the pre-populated test user. -/
def testEmail : JStr := "test@example.com".toList

/-- Password of the pre-populated test user. -/
def testPassword : JStr := "testpass123".toList

/-- A password that is not the stored one. -/
def otherPassword : JStr := "totally-different".toList

/-- A Convex database holding one registered user; per the schema no
credential is stored with it. -/
def cexConvexDb : CDb :=
  { users := [{ cid := testUserId, name := testUserName, email := testEmail
                emailVerificationTime := some 0 }]
    profiles := [], authLogs := [] }

/-- Counterexample to C1 on the Convex path: `internal.authenticateUser`
ignores the supplied password, so the HTTP login action answers 200 for
two different passwords against the same single account.  At most one of
them could equal a stored credential (none is even stored), so login
success is not equivalent to supplying the account's credential, and an
existing email with a wrong password is not answered with 401. -/
theorem convexLogin_ignores_password_cex :
    (convexHttpLogin (some testEmail) (some testPassword) cexConvexDb 5).1
      = (200, CResp.loginOk testUserId testUserName testEmail)
    ∧ (convexHttpLogin (some testEmail) (some otherPassword) cexConvexDb 5).1
      = (200, CResp.loginOk testUserId testUserName testEmail)
    ∧ testPassword ≠ otherPassword := by
  decide

/-- C1 (amended): on the mock-store path the equivalence does hold.  In
an email-unique store, `MockAuthStore.authenticateUser` succeeds exactly
when an account with the supplied (normalized) email exists whose stored
password is the supplied one, and whenever no such account-password pair
exists the login route answers with the generic 401 response. -/
theorem mockLogin_succeeds_iff_password_matches
    (env : Env) (origin referer : Option JStr) (users : List MUser) (e p : JStr)
    (huniq : ∀ u ∈ users, ∀ v ∈ users, u.email = v.email → u = v)
    (ho : validateOrigin env origin referer = true)
    (hfmt : emailFormatOk e = true)
    (hp : p ≠ []) :
    ((MockAuthStore.authenticateUser (jsTrim (jsToLower e)) p users).isSome
      ↔ ∃ u ∈ users, u.email = jsTrim (jsToLower e) ∧ u.password = p)
    ∧ ((¬ ∃ u ∈ users, u.email = jsTrim (jsToLower e) ∧ u.password = p) →
        loginRoute env origin referer (some e) (some p) users
          = (401, RespBody.errMsg msgInvalidCredentials)) := by
  have hiff := authenticateUser_isSome_iff users (jsTrim (jsToLower e)) p huniq
  refine ⟨hiff, ?_⟩
  intro hnone
  have hA : MockAuthStore.authenticateUser (jsTrim (jsToLower e)) p users = none := by
    cases hA : MockAuthStore.authenticateUser (jsTrim (jsToLower e)) p users with
    | none => rfl
    | some u =>
      exfalso
      exact hnone (hiff.mp (by rw [hA]; rfl))
  have hee : e.isEmpty = false := isEmpty_false_of_ne_nil (emailFormatOk_ne_nil hfmt)
  have hpe : p.isEmpty = false := isEmpty_false_of_ne_nil hp
  simp [loginRoute, ho, rateLimit, optTruthy, hee, hpe, hfmt, hA]

/-- The mock store pre-populated with its development test user. -/
def usersWitness : List MUser :=
  [{ id := testUserId, name := testUserName, email := testEmail
     password := testPassword, createdAt := 0 }]

/-- A wrong password for the witness login attempts. -/
def wrongPassword : JStr := "wrongpass".toList

/-- Witness for C1 (amended) on the pre-populated store with a wrong
password. -/
theorem mockLogin_succeeds_iff_password_matches_witness :
    ((MockAuthStore.authenticateUser (jsTrim (jsToLower testEmail)) wrongPassword
        usersWitness).isSome
      ↔ ∃ u ∈ usersWitness,
          u.email = jsTrim (jsToLower testEmail) ∧ u.password = wrongPassword)
    ∧ ((¬ ∃ u ∈ usersWitness,
          u.email = jsTrim (jsToLower testEmail) ∧ u.password = wrongPassword) →
        loginRoute { production := false, appUrl := none } none none
            (some testEmail) (some wrongPassword) usersWitness
          = (401, RespBody.errMsg msgInvalidCredentials)) :=
  mockLogin_succeeds_iff_password_matches { production := false, appUrl := none }
    none none usersWitness testEmail wrongPassword
    (by decide) (by decide) (by decide) (by decide)

/-- C5: a login attempt whose (normalized) email matches no stored
account and one whose email belongs to an existing account but whose
password does not match its stored password receive exactly the same
response from the login route: status 401 with the one generic
`Invalid email or password` body, so the two failure causes are
indistinguishable to the caller. -/
theorem login_enumeration_resistant
    (env : Env) (origin referer : Option JStr) (users : List MUser)
    (e1 p1 e2 p2 : JStr) (u : MUser)
    (huniq : ∀ x ∈ users, ∀ v ∈ users, x.email = v.email → x = v)
    (ho : validateOrigin env origin referer = true)
    (hf1 : emailFormatOk e1 = true) (hf2 : emailFormatOk e2 = true)
    (hp1 : p1 ≠ []) (hp2 : p2 ≠ [])
    (hnone : MockAuthStore.findUserByEmail (jsTrim (jsToLower e1)) users = none)
    (hu : u ∈ users) (hue : u.email = jsTrim (jsToLower e2))
    (hup : u.password ≠ p2) :
    loginRoute env origin referer (some e1) (some p1) users
      = (401, RespBody.errMsg msgInvalidCredentials)
    ∧ loginRoute env origin referer (some e2) (some p2) users
      = (401, RespBody.errMsg msgInvalidCredentials) := by
  have hA1 : MockAuthStore.authenticateUser (jsTrim (jsToLower e1)) p1 users
      = none := by
    unfold MockAuthStore.authenticateUser
    rw [hnone]
  have hA2 : MockAuthStore.authenticateUser (jsTrim (jsToLower e2)) p2 users
      = none := by
    cases hA : MockAuthStore.authenticateUser (jsTrim (jsToLower e2)) p2 users with
    | none => rfl
    | some w =>
      exfalso
      have hiff := authenticateUser_isSome_iff users (jsTrim (jsToLower e2)) p2 huniq
      obtain ⟨v, hv, hve, hvp⟩ := hiff.mp (by rw [hA]; rfl)
      have hvu : v = u := huniq v hv u hu (by rw [hve, hue])
      exact hup (by rw [← hvu, hvp])
  have he1 : e1.isEmpty = false := isEmpty_false_of_ne_nil (emailFormatOk_ne_nil hf1)
  have he2 : e2.isEmpty = false := isEmpty_false_of_ne_nil (emailFormatOk_ne_nil hf2)
  have hq1 : p1.isEmpty = false := isEmpty_false_of_ne_nil hp1
  have hq2 : p2.isEmpty = false := isEmpty_false_of_ne_nil hp2
  constructor
  · simp [loginRoute, ho, rateLimit, optTruthy, he1, hq1, hf1, hA1]
  · simp [loginRoute, ho, rateLimit, optTruthy, he2, hq2, hf2, hA2]

/-- An email registered by nobody in the witness store. -/
def unknownEmail : JStr := "nobody@example.com".toList

/-- Witness for C5: against the pre-populated store, a login with an
unknown email and one with the test account email but a wrong password
both yield the same generic 401 response. -/
theorem login_enumeration_resistant_witness :
    loginRoute { production := false, appUrl := none } none none
        (some unknownEmail) (some wrongPassword) usersWitness
      = (401, RespBody.errMsg msgInvalidCredentials)
    ∧ loginRoute { production := false, appUrl := none } none none
        (some testEmail) (some wrongPassword) usersWitness
      = (401, RespBody.errMsg msgInvalidCredentials) :=
  login_enumeration_resistant { production := false, appUrl := none } none none
    usersWitness unknownEmail wrongPassword testEmail wrongPassword
    (usersWitness.headD { id := [], name := [], email := [], password := []
                          createdAt := 0 })
    (by decide) (by decide) (by decide) (by decide) (by decide) (by decide)
    (by decide) (by decide) (by decide) (by decide)

/-- C6 (amended, register route): whenever the store holds an account
whose stored email is the lowercase form of the requested email (the two
differ only in letter case) and that stored email is trimmed, a
well-formed registration request for it is answered with the 409
conflict response and the user array is returned unchanged — no account
is inserted. -/
theorem registerRoute_case_insensitive_conflict
    (env : Env) (origin referer : Option JStr) (users : List MUser) (u : MUser)
    (nm em pw newId : JStr) (now : Int)
    (ho : validateOrigin env origin referer = true)
    (hu : u ∈ users)
    (hcase : jsToLower em = u.email)
    (htrim : jsTrim u.email = u.email)
    (hnm : nm ≠ []) (hpw : 8 ≤ pw.length)
    (hfmt : emailFormatOk em = true) :
    registerRoute env origin referer (some nm) (some em) (some pw) users newId now
      = ((409, RespBody.errMsg msgUserExists), users) := by
  have hnorm : jsTrim (jsToLower em) = u.email := by rw [hcase, htrim]
  have hfind : (MockAuthStore.findUserByEmail (jsTrim (jsToLower em)) users).isSome := by
    unfold MockAuthStore.findUserByEmail
    rw [List.find?_isSome]
    exact ⟨u, hu, decide_eq_true hnorm.symm⟩
  obtain ⟨v, hv⟩ := Option.isSome_iff_exists.mp hfind
  have hpnil : pw ≠ [] := by
    intro h
    rw [h] at hpw
    simp at hpw
  have hlt : ¬ pw.length < 8 := by omega
  have hne : nm.isEmpty = false := isEmpty_false_of_ne_nil hnm
  have hee : em.isEmpty = false := isEmpty_false_of_ne_nil (emailFormatOk_ne_nil hfmt)
  have hqe : pw.isEmpty = false := isEmpty_false_of_ne_nil hpnil
  simp [registerRoute, ho, rateLimit, optTruthy, hne, hee, hqe, hlt, hfmt, hv]

/-- The case-variant request email of the specification example. -/
def caseVariantEmail : JStr := "Test@Example.com".toList

/-- A registrant name for the C6 witness. -/
def witnessName : JStr := "Second Try".toList

/-- A policy-passing password for the C6 witness. -/
def witnessPassword : JStr := "longenough1".toList

/-- Witness for C6 (amended): registering `Test@Example.com` against the
store already holding `test@example.com` is answered 409 and the store
is unchanged. -/
theorem registerRoute_case_insensitive_conflict_witness :
    registerRoute { production := false, appUrl := none } none none
        (some witnessName) (some caseVariantEmail) (some witnessPassword)
        usersWitness ("user_2".toList) 9
      = ((409, RespBody.errMsg msgUserExists), usersWitness) :=
  registerRoute_case_insensitive_conflict { production := false, appUrl := none }
    none none usersWitness
    (usersWitness.headD { id := [], name := [], email := [], password := []
                          createdAt := 0 })
    witnessName caseVariantEmail witnessPassword ("user_2".toList) 9
    (by decide) (by decide) (by decide) (by decide) (by decide) (by decide)
    (by decide)

/-- Counterexample to C6 on the Convex path: the `register` mutation of
`convex/authentication.ts` compares emails exactly, so with
`test@example.com` already stored, registering its case variant
`Test@Example.com` does not yield a conflict — it succeeds and inserts a
second account whose email differs from the stored one only in letter
case. -/
theorem convexRegister_case_variant_cex :
    (match convexRegister witnessName caseVariantEmail witnessPassword
        cexConvexDb ("u2".toList) 7 with
      | Except.ok (_, db2) => db2.users.length
      | Except.error _ => 0) = 2
    ∧ jsToLower caseVariantEmail = testEmail
    ∧ (cexConvexDb.users.map (fun u => u.email)) = [testEmail] := by
  decide

/-- C8 (amended, Convex query): `getMyAuthLogs` returns only entries of
the calling account, in descending creation order (most recent first,
given the append-only chronological table), and never more than 50 of
them. -/
theorem getMyAuthLogs_own_recent_bounded
    (uid : JStr) (logs : List CLog)
    (hchron : List.Pairwise (fun a b => a.timestamp ≤ b.timestamp) logs) :
    (∀ l ∈ getMyAuthLogs (some uid) logs, l.userId = some uid)
    ∧ List.Pairwise (fun a b => b.timestamp ≤ a.timestamp)
        (getMyAuthLogs (some uid) logs)
    ∧ (getMyAuthLogs (some uid) logs).length ≤ 50 := by
  unfold getMyAuthLogs
  refine ⟨?_, ?_, ?_⟩
  · intro l hl
    have h1 := List.mem_of_mem_take hl
    have h2 := List.mem_reverse.mp h1
    have h3 := List.mem_filter.mp h2
    exact of_decide_eq_true h3.2
  · have hf : List.Pairwise (fun a b => a.timestamp ≤ b.timestamp)
        (logs.filter (fun l => l.userId = some uid)) :=
      List.Pairwise.sublist (List.filter_sublist logs) hchron
    have hr : List.Pairwise (fun a b => b.timestamp ≤ a.timestamp)
        ((logs.filter (fun l => l.userId = some uid)).reverse) :=
      List.pairwise_reverse.mpr hf
    exact List.Pairwise.sublist (List.take_sublist 50 _) hr
  · exact List.length_take_le 50 _

/-- Two chronological log entries of one account for the C8 witness. -/
def clogEarly : CLog :=
  { action := actUserLogin, userId := some testUserId, email := some testEmail
    success := true, error := none, timestamp := 1 }

/-- The later of the two witness entries. -/
def clogLate : CLog :=
  { action := actUserLogin, userId := some testUserId, email := some testEmail
    success := false, error := none, timestamp := 2 }

/-- Witness for C8 (amended) on a two-entry chronological table. -/
theorem getMyAuthLogs_own_recent_bounded_witness :
    (∀ l ∈ getMyAuthLogs (some testUserId) [clogEarly, clogLate],
      l.userId = some testUserId)
    ∧ List.Pairwise (fun a b => b.timestamp ≤ a.timestamp)
        (getMyAuthLogs (some testUserId) [clogEarly, clogLate])
    ∧ (getMyAuthLogs (some testUserId) [clogEarly, clogLate]).length ≤ 50 :=
  getMyAuthLogs_own_recent_bounded testUserId [clogEarly, clogLate] (by decide)

/-- Mock-store log entries mirroring the witness pair. -/
def mlogEarly : MLog :=
  { id := "l1".toList, action := actUserLogin, userId := testUserId
    email := testEmail, success := true, timestamp := 1 }

/-- The later mock-store entry. -/
def mlogLate : MLog :=
  { id := "l2".toList, action := actUserLogin, userId := testUserId
    email := testEmail, success := false, timestamp := 2 }

/-- A mock log array with 51 entries for one account. -/
def mlogs51 : List MLog := List.replicate 51 mlogEarly

/-- Counterexample to C8 on the mock store: `MockAuthStore.getAuthLogs`
returns the account's entries in insertion order, so the oldest entry
comes first (not most recent first), and it applies no bound: with 51
stored entries for the account it returns all 51. -/
theorem mock_getAuthLogs_order_unbounded_cex :
    MockAuthStore.getAuthLogs (some testUserId) [mlogEarly, mlogLate]
      = [mlogEarly, mlogLate]
    ∧ mlogEarly.timestamp < mlogLate.timestamp
    ∧ ¬ List.Pairwise (fun a b => b.timestamp ≤ a.timestamp)
        (MockAuthStore.getAuthLogs (some testUserId) [mlogEarly, mlogLate])
    ∧ (MockAuthStore.getAuthLogs (some testUserId) mlogs51).length = 51 := by
  decide
